import Mathlib

/-!
Shallow embedding of TimeLedger's tracker module (`timeledger/tracker.py`).

Timestamps are modelled as integers (seconds); dates as strings.  The event
store is modelled by passing the fetched, chronologically ordered event list
to the aggregation functions, and by a boolean `appendOk` parameter on the
transition operations: when it is `false`, `insert_event` raises, and the
operation returns the tracker state as mutated up to the raise point
(Python exceptions propagate but keep earlier field mutations).
-/

namespace TimeLedger

/-- Tracker states (`State` enum in tracker.py). -/
inductive State where
  | idle
  | working
  | paused
  | ended
deriving DecidableEq, Repr

/-- User actions (`Action` enum in tracker.py). -/
inductive Action where
  | start
  | pause
  | resume
  | endDay
deriving DecidableEq, Repr

/-- A stored event document: `{date, timestamp, action, reason?}`. -/
structure Event where
  date : String
  timestamp : Int
  action : Action
  reason : Option String := none
deriving DecidableEq, Repr

/-- The in-memory fields of `WorkTracker`. -/
structure TrackerState where
  state : State
  currentDate : String
  workStartTime : Option Int
  workEndTime : Option Int
  pauseStartTime : Option Int
  intervalStartTime : Option Int
  totalBreakSeconds : Int
  breakReasons : List String
deriving DecidableEq, Repr

/-- The freshly constructed tracker fields before `_restore_state` runs. -/
def freshState (today : String) : TrackerState :=
  { state := State.idle
    currentDate := today
    workStartTime := none
    workEndTime := none
    pauseStartTime := none
    intervalStartTime := none
    totalBreakSeconds := 0
    breakReasons := [] }

/-- Python's `str.strip()`: drop leading and trailing whitespace.  (Lean's
`String.trim` is extensionally the same on ASCII but is defined through
`Substring` functions that do not reduce definitionally, so the character
list form is used.) -/
def pyStrip (s : String) : String :=
  String.mk (((s.data.dropWhile Char.isWhitespace).reverse.dropWhile Char.isWhitespace).reverse)

/-- Errors a transition can raise: `InvalidTransitionError`, `ValueError`
(empty pause reason), and a database failure from `insert_event`. -/
inductive TrackerError where
  | invalidTransition (current : State) (attempted : Action)
  | invalidArgument (msg : String)
  | storageError
deriving DecidableEq, Repr

/-- Result of a transition: on success the updated tracker and the event
appended by `insert_event`; on failure the raised error together with the
tracker fields as they stand at the raise point. -/
abbrev TransitionResult := Except (TrackerError × TrackerState) (TrackerState × Event)

deriving instance DecidableEq for Except

/-- `WorkTracker.start_work`.  Note that `self._current_date` is assigned
before `insert_event` is called. -/
def startWork (appendOk : Bool) (today : String) (now : Int) (s : TrackerState) :
    TransitionResult :=
  if s.state ≠ State.idle then
    Except.error (TrackerError.invalidTransition s.state Action.start, s)
  else
    let s1 := { s with currentDate := today }
    if appendOk = false then
      Except.error (TrackerError.storageError, s1)
    else
      Except.ok
        ({ s1 with
            state := State.working
            workStartTime := some now
            intervalStartTime := some now
            workEndTime := none },
         { date := today, timestamp := now, action := Action.start, reason := none })

/-- `WorkTracker.pause_work`. -/
def pauseWork (appendOk : Bool) (now : Int) (reason : String) (s : TrackerState) :
    TransitionResult :=
  if s.state ≠ State.working then
    Except.error (TrackerError.invalidTransition s.state Action.pause, s)
  else if pyStrip reason = "" then
    Except.error (TrackerError.invalidArgument "Pause reason is required.", s)
  else
    let r := pyStrip reason
    if appendOk = false then
      Except.error (TrackerError.storageError, s)
    else
      Except.ok
        ({ s with
            state := State.paused
            pauseStartTime := some now
            intervalStartTime := none
            breakReasons := s.breakReasons ++ [r] },
         { date := s.currentDate, timestamp := now, action := Action.pause, reason := some r })

/-- `WorkTracker.resume_work`. -/
def resumeWork (appendOk : Bool) (now : Int) (s : TrackerState) : TransitionResult :=
  if s.state ≠ State.paused then
    Except.error (TrackerError.invalidTransition s.state Action.resume, s)
  else if appendOk = false then
    Except.error (TrackerError.storageError, s)
  else
    let tb :=
      match s.pauseStartTime with
      | some p => s.totalBreakSeconds + (now - p)
      | none => s.totalBreakSeconds
    Except.ok
      ({ s with
          state := State.working
          totalBreakSeconds := tb
          pauseStartTime := none
          intervalStartTime := some now },
       { date := s.currentDate, timestamp := now, action := Action.resume, reason := none })

/-- `WorkTracker.end_day`.  Note that when paused the remaining break time is
folded into `_total_break_seconds` before `insert_event` is called. -/
def endDay (appendOk : Bool) (now : Int) (s : TrackerState) : TransitionResult :=
  if s.state ≠ State.working ∧ s.state ≠ State.paused then
    Except.error (TrackerError.invalidTransition s.state Action.endDay, s)
  else
    let s1 :=
      if s.state = State.paused then
        match s.pauseStartTime with
        | some p => { s with totalBreakSeconds := s.totalBreakSeconds + (now - p) }
        | none => s
      else s
    if appendOk = false then
      Except.error (TrackerError.storageError, s1)
    else
      Except.ok
        ({ s1 with
            state := State.ended
            workEndTime := some now
            intervalStartTime := none },
         { date := s.currentDate, timestamp := now, action := Action.endDay, reason := none })

/-- `WorkTracker.get_elapsed_work_time`, with the current instant passed in. -/
def getElapsedWorkTime (s : TrackerState) (now : Int) : Int :=
  if s.state = State.idle then 0
  else
    match s.workStartTime with
    | none => 0
    | some ws =>
      let endTime :=
        match s.state, s.workEndTime with
        | State.ended, some we => we
        | _, _ => now
      let totalElapsed := endTime - ws
      let workTime := totalElapsed - s.totalBreakSeconds
      let workTime2 :=
        if s.state = State.paused then
          match s.pauseStartTime with
          | some p => workTime - (endTime - p)
          | none => workTime
        else workTime
      max 0 workTime2

/-- Accumulator of the replay loop inside `_restore_state` (the tracker
fields plus the local variable `pause_time`). -/
structure RestoreAcc where
  s : TrackerState
  pauseTime : Option Int
deriving DecidableEq, Repr

/-- One iteration of the `for event in events` loop of `_restore_state`. -/
def restoreStep (acc : RestoreAcc) (e : Event) : RestoreAcc :=
  match e.action with
  | Action.start =>
    { acc with s := { acc.s with workStartTime := some e.timestamp, state := State.working } }
  | Action.pause =>
    { s := { acc.s with
        state := State.paused
        breakReasons := acc.s.breakReasons ++ [e.reason.getD "No reason"] }
      pauseTime := some e.timestamp }
  | Action.resume =>
    match acc.pauseTime with
    | some p =>
      { s := { acc.s with
          totalBreakSeconds := acc.s.totalBreakSeconds + (e.timestamp - p)
          state := State.working
          intervalStartTime := some e.timestamp }
        pauseTime := none }
    | none =>
      { acc with s := { acc.s with state := State.working, intervalStartTime := some e.timestamp } }
  | Action.endDay =>
    let tb :=
      match acc.pauseTime with
      | some p => acc.s.totalBreakSeconds + (e.timestamp - p)
      | none => acc.s.totalBreakSeconds
    { acc with s := { acc.s with
        totalBreakSeconds := tb
        state := State.ended
        workEndTime := some e.timestamp
        intervalStartTime := none } }

/-- `WorkTracker._restore_state`: `events` is the list `get_today_events()`
would return for `today`. -/
def restoreState (today : String) (events : List Event) (s : TrackerState) : TrackerState :=
  if s.currentDate ≠ today then
    { state := State.idle
      currentDate := today
      workStartTime := none
      workEndTime := none
      pauseStartTime := none
      intervalStartTime := none
      totalBreakSeconds := 0
      breakReasons := [] }
  else if events.isEmpty then s
  else (events.foldl restoreStep { s := s, pauseTime := none }).s

/-- The `TimeStats` dataclass. -/
structure TimeStats where
  total_span_seconds : Int
  break_seconds : Int
  work_seconds : Int
  break_count : Nat
  break_reasons : List String
  first_start : Option Int
  last_end : Option Int
deriving DecidableEq, Repr

/-- Accumulator of the replay loop inside `get_stats_for_date`. -/
structure StatsAcc where
  first_start : Option Int
  last_end : Option Int
  pause_time : Option Int
  total_break : Int
  break_count : Nat
  break_reasons : List String
deriving DecidableEq, Repr

/-- Initial accumulator of `get_stats_for_date`. -/
def initStatsAcc : StatsAcc :=
  { first_start := none, last_end := none, pause_time := none
    total_break := 0, break_count := 0, break_reasons := [] }

/-- One iteration of the `for event in events` loop of `get_stats_for_date`. -/
def statsStep (acc : StatsAcc) (e : Event) : StatsAcc :=
  match e.action with
  | Action.start =>
    { acc with first_start := some e.timestamp }
  | Action.pause =>
    { acc with
        pause_time := some e.timestamp
        break_count := acc.break_count + 1
        break_reasons := acc.break_reasons ++ [e.reason.getD "No reason"] }
  | Action.resume =>
    match acc.pause_time with
    | some p =>
      { acc with total_break := acc.total_break + (e.timestamp - p), pause_time := none }
    | none => acc
  | Action.endDay =>
    let acc1 := { acc with last_end := some e.timestamp }
    match acc.pause_time with
    | some p => { acc1 with total_break := acc1.total_break + (e.timestamp - p) }
    | none => acc1

/-- `WorkTracker.get_stats_for_date`, applied to the fetched event list. -/
def getStatsForDate (events : List Event) : TimeStats :=
  if events.isEmpty then
    { total_span_seconds := 0, break_seconds := 0, work_seconds := 0
      break_count := 0, break_reasons := [], first_start := none, last_end := none }
  else
    let a := events.foldl statsStep initStatsAcc
    let span :=
      match a.first_start, a.last_end with
      | some f, some l => l - f
      | _, _ => 0
    { total_span_seconds := span
      break_seconds := a.total_break
      work_seconds := max 0 (span - a.total_break)
      break_count := a.break_count
      break_reasons := a.break_reasons
      first_start := a.first_start
      last_end := a.last_end }

/-- Grouping of fetched events by their `date` field: a Python dict keeps
keys in first-insertion order and each bucket keeps event order. -/
def groupByDate (events : List Event) : List (String × List Event) :=
  events.foldl
    (fun acc e =>
      if acc.any (fun p => p.1 = e.date) then
        acc.map (fun p => if p.1 = e.date then (p.1, p.2 ++ [e]) else p)
      else acc ++ [(e.date, [e])])
    []

/-- The running aggregate of `get_stats_for_range`: totals plus the global
`first_start` / `last_end` / `all_reasons` updated inside the inner loop. -/
structure RangeAcc where
  work : Int
  brk : Int
  count : Nat
  reasons : List String
  first_start : Option Int
  last_end : Option Int
deriving DecidableEq, Repr

/-- Initial aggregate of `get_stats_for_range`. -/
def initRangeAcc : RangeAcc :=
  { work := 0, brk := 0, count := 0, reasons := [], first_start := none, last_end := none }

/-- The per-date local variables of `get_stats_for_range`. -/
structure RangeDayAcc where
  d_first : Option Int
  d_last : Option Int
  d_pause : Option Int
  d_break : Int
  d_count : Nat
deriving DecidableEq, Repr

/-- Fresh per-date locals at the top of the outer loop. -/
def freshDayAcc : RangeDayAcc :=
  { d_first := none, d_last := none, d_pause := none, d_break := 0, d_count := 0 }

/-- One iteration of the inner `for event in date_events` loop of
`get_stats_for_range`. -/
def rangeEventStep (g : RangeAcc × RangeDayAcc) (e : Event) : RangeAcc × RangeDayAcc :=
  let ga := g.1
  let da := g.2
  match e.action with
  | Action.start =>
    let da1 := if da.d_first = none then { da with d_first := some e.timestamp } else da
    let ga1 :=
      match ga.first_start with
      | none => { ga with first_start := some e.timestamp }
      | some f => if e.timestamp < f then { ga with first_start := some e.timestamp } else ga
    (ga1, da1)
  | Action.pause =>
    ({ ga with reasons := ga.reasons ++ [e.reason.getD "No reason"] },
     { da with d_pause := some e.timestamp, d_count := da.d_count + 1 })
  | Action.resume =>
    match da.d_pause with
    | some p =>
      (ga, { da with d_break := da.d_break + (e.timestamp - p), d_pause := none })
    | none => (ga, da)
  | Action.endDay =>
    let da1 := { da with d_last := some e.timestamp }
    let ga1 :=
      match ga.last_end with
      | none => { ga with last_end := some e.timestamp }
      | some l => if e.timestamp > l then { ga with last_end := some e.timestamp } else ga
    let da2 :=
      match da1.d_pause with
      | some p => { da1 with d_break := da1.d_break + (e.timestamp - p) }
      | none => da1
    (ga1, da2)

/-- One iteration of the outer `for date, date_events in events_by_date`
loop of `get_stats_for_range`: run the inner loop, then add the per-date
totals when both a start and an end were seen. -/
def rangeDayStep (ga : RangeAcc) (grp : String × List Event) : RangeAcc :=
  let r := grp.2.foldl rangeEventStep (ga, freshDayAcc)
  let ga1 := r.1
  let da := r.2
  match da.d_first, da.d_last with
  | some f, some l =>
    let span := l - f
    { ga1 with
        work := ga1.work + max 0 (span - da.d_break)
        brk := ga1.brk + da.d_break
        count := ga1.count + da.d_count }
  | _, _ => ga1

/-- `WorkTracker.get_stats_for_range`, applied to the fetched event list. -/
def getStatsForRange (events : List Event) : TimeStats :=
  if events.isEmpty then
    { total_span_seconds := 0, break_seconds := 0, work_seconds := 0
      break_count := 0, break_reasons := [], first_start := none, last_end := none }
  else
    let ga := (groupByDate events).foldl rangeDayStep initRangeAcc
    { total_span_seconds := ga.work + ga.brk
      break_seconds := ga.brk
      work_seconds := ga.work
      break_count := ga.count
      break_reasons := ga.reasons
      first_start := ga.first_start
      last_end := ga.last_end }

/-- A live user action with the instant at which it happens. -/
inductive TimedAction where
  | start (t : Int)
  | pause (t : Int) (reason : String)
  | resume (t : Int)
  | endDay (t : Int)
deriving DecidableEq, Repr

/-- Dispatch one live action (all appends succeed). -/
def applyTimedAction (today : String) (a : TimedAction) (s : TrackerState) : TransitionResult :=
  match a with
  | TimedAction.start t => startWork true today t s
  | TimedAction.pause t r => pauseWork true t r s
  | TimedAction.resume t => resumeWork true t s
  | TimedAction.endDay t => endDay true t s

/-- Run a sequence of live actions on one calendar date, collecting the
events appended to the store; `none` when some transition raises. -/
def runLive (today : String) : List TimedAction → TrackerState →
    Option (TrackerState × List Event)
  | [], s => some (s, [])
  | a :: rest, s =>
    match applyTimedAction today a s with
    | Except.error _ => none
    | Except.ok (s1, e) =>
      match runLive today rest s1 with
      | none => none
      | some (s2, es) => some (s2, e :: es)

/-- Modelled from the spec: `elapsedWorkTime()` as §4.2 states it —
"(endInstant − workStartTime) − totalBreakSeconds, further reduced by the
in-progress pause duration if currently PAUSED; endInstant is workEndTime if
ENDED, else now. Clamped to ≥ 0. Returns 0 if IDLE or workStartTime unset." -/
def elapsedWorkTimeSpec (s : TrackerState) (now : Int) : Int :=
  if s.state = State.idle ∨ s.workStartTime = none then 0
  else
    let ws := s.workStartTime.getD 0
    let endInstant :=
      match s.state, s.workEndTime with
      | State.ended, some we => we
      | _, _ => now
    let pausePart :=
      match s.state, s.pauseStartTime with
      | State.paused, some p => endInstant - p
      | _, _ => 0
    max 0 (endInstant - ws - s.totalBreakSeconds - pausePart)

/-- Earliest of two optional instants (spec: "overall earliest first_start"). -/
def combineEarliest (a b : Option Int) : Option Int :=
  match a, b with
  | none, x => x
  | some x, none => some x
  | some x, some y => some (min x y)

/-- Latest of two optional instants (spec: "overall latest last_end"). -/
def combineLatest (a b : Option Int) : Option Int :=
  match a, b with
  | none, x => x
  | some x, none => some x
  | some x, some y => some (max x y)

/-- Per-day stats of each date bucket, in bucket order. -/
def specDays (events : List Event) : List TimeStats :=
  (groupByDate events).map (fun g => getStatsForDate g.2)

/-- Sum of per-day `work_seconds`. -/
def sumWork (ds : List TimeStats) : Int :=
  ds.foldl (fun a d => a + d.work_seconds) 0

/-- Sum of per-day `break_seconds`. -/
def sumBreak (ds : List TimeStats) : Int :=
  ds.foldl (fun a d => a + d.break_seconds) 0

/-- Sum of per-day `break_count`. -/
def sumCount (ds : List TimeStats) : Nat :=
  ds.foldl (fun a d => a + d.break_count) 0

/-- Concatenation of per-day `break_reasons` in date order. -/
def concatReasons (ds : List TimeStats) : List String :=
  ds.foldl (fun a d => a ++ d.break_reasons) []

/-- Earliest per-day `first_start`. -/
def earliestStart (ds : List TimeStats) : Option Int :=
  ds.foldl (fun a d => combineEarliest a d.first_start) none

/-- Latest per-day `last_end`. -/
def latestEnd (ds : List TimeStats) : Option Int :=
  ds.foldl (fun a d => combineLatest a d.last_end) none

/-- Modelled from the spec: `statsForRange` as §4.3 states it — group events
by date, run the per-date replay (`getStatsForDate`) independently on each
bucket, sum work, break and break_count across dates, concatenate
break_reasons in date order, take the earliest first_start and latest
last_end, and set total_span_seconds to work + break. -/
def statsForRangeSpec (events : List Event) : TimeStats :=
  { total_span_seconds := sumWork (specDays events) + sumBreak (specDays events)
    break_seconds := sumBreak (specDays events)
    work_seconds := sumWork (specDays events)
    break_count := sumCount (specDays events)
    break_reasons := concatReasons (specDays events)
    first_start := earliestStart (specDays events)
    last_end := latestEnd (specDays events) }

/-- Timestamps of the `START` events of a list, in order. -/
def startTimes (es : List Event) : List Int :=
  (es.filter (fun e => e.action == Action.start)).map (fun e => e.timestamp)

/-- Timestamps of the `END` events of a list, in order. -/
def endTimes (es : List Event) : List Int :=
  (es.filter (fun e => e.action == Action.endDay)).map (fun e => e.timestamp)

/-- Reasons of the `PAUSE` events of a list, in order, with the replay's
`"No reason"` default. -/
def pauseReasons (es : List Event) : List String :=
  (es.filter (fun e => e.action == Action.pause)).map (fun e => e.reason.getD "No reason")

/-- How the inner loop of `get_stats_for_range` updates the global
`first_start` on a `START` event. -/
def earliestUpdate (o : Option Int) (t : Int) : Option Int :=
  match o with
  | none => some t
  | some f => if t < f then some t else some f

/-- How the inner loop of `get_stats_for_range` updates the global
`last_end` on an `END` event. -/
def latestUpdate (o : Option Int) (t : Int) : Option Int :=
  match o with
  | none => some t
  | some l => if t > l then some t else some l

/-- How the inner loop of `get_stats_for_range` updates the per-date
`d_first_start` on a `START` event (first one wins). -/
def keepFirst (o : Option Int) (t : Int) : Option Int :=
  if o = none then some t else o

/-- How the `get_stats_for_date` replay updates `first_start` on a `START`
event (last one wins), and `last_end` on an `END` event. -/
def overwrite (_ : Option Int) (t : Int) : Option Int :=
  some t

/-- Every date bucket of the event list has exactly one `START` and exactly
one `END` event. -/
abbrev OnePerBucket (events : List Event) : Prop :=
  ∀ g ∈ groupByDate events, (startTimes g.2).length = 1 ∧ (endTimes g.2).length = 1

/-- Simulation invariant between the live tracker state `L` and the replay
accumulator `A` of `_restore_state`, for a run on calendar date `today`:
the replayed tracker agrees with the live one on every field except
`pauseStartTime` and `intervalStartTime`, and the replay's local
`pause_time` variable tracks the live `pauseStartTime`. -/
def SimInv (today : String) (L : TrackerState) (A : RestoreAcc) : Prop :=
  A.s.state = L.state ∧
  A.s.currentDate = L.currentDate ∧
  L.currentDate = today ∧
  A.s.workStartTime = L.workStartTime ∧
  A.s.workEndTime = L.workEndTime ∧
  A.s.totalBreakSeconds = L.totalBreakSeconds ∧
  A.s.breakReasons = L.breakReasons ∧
  A.pauseTime = L.pauseStartTime ∧
  (L.state = State.working → L.pauseStartTime = none) ∧
  (L.state = State.idle → L.workEndTime = none ∧ L.pauseStartTime = none)

/-- A paused tracker with a pending pause started at instant 0. -/
def pausedAtZero : TrackerState :=
  { freshState "d" with
      state := State.paused
      workStartTime := some 0
      pauseStartTime := some 0 }

/-- Events of two fully closed days plus the extremes far apart. -/
def twoDayEvents : List Event :=
  [ { date := "d1", timestamp := 0, action := Action.start, reason := none },
    { date := "d1", timestamp := 100, action := Action.endDay, reason := none },
    { date := "d2", timestamp := 1000, action := Action.start, reason := none },
    { date := "d2", timestamp := 1100, action := Action.endDay, reason := none } ]

/-- A two-date event list whose second date has a pause but no `END`. -/
def openSecondDayEvents : List Event :=
  [ { date := "d1", timestamp := 0, action := Action.start, reason := none },
    { date := "d1", timestamp := 100, action := Action.endDay, reason := none },
    { date := "d2", timestamp := 200, action := Action.start, reason := none },
    { date := "d2", timestamp := 250, action := Action.pause, reason := some "x" },
    { date := "d2", timestamp := 300, action := Action.resume, reason := none } ]

/-- A two-date event list with exactly one `START` and one `END` per date. -/
def closedDaysEvents : List Event :=
  [ { date := "d1", timestamp := 0, action := Action.start, reason := none },
    { date := "d1", timestamp := 10, action := Action.pause, reason := some "a" },
    { date := "d1", timestamp := 20, action := Action.resume, reason := none },
    { date := "d1", timestamp := 100, action := Action.endDay, reason := none },
    { date := "d2", timestamp := 200, action := Action.start, reason := none },
    { date := "d2", timestamp := 300, action := Action.endDay, reason := none } ]

/-- A legal live action sequence used to instantiate the restoration
theorem: start, pause for tea, resume, end the day. -/
def sampleActs : List TimedAction :=
  [ TimedAction.start 0, TimedAction.pause 5 "tea",
    TimedAction.resume 9, TimedAction.endDay 20 ]

/-- The events `sampleActs` appends to the store. -/
def sampleEvents : List Event :=
  [ { date := "d", timestamp := 0, action := Action.start, reason := none },
    { date := "d", timestamp := 5, action := Action.pause, reason := some "tea" },
    { date := "d", timestamp := 9, action := Action.resume, reason := none },
    { date := "d", timestamp := 20, action := Action.endDay, reason := none } ]

/-- The tracker state `sampleActs` produces live. -/
def sampleFinal : TrackerState :=
  { state := State.ended
    currentDate := "d"
    workStartTime := some 0
    workEndTime := some 20
    pauseStartTime := none
    intervalStartTime := none
    totalBreakSeconds := 4
    breakReasons := ["tea"] }

/-! ### Helper lemmas -/

lemma statsStep_count_length (acc : StatsAcc) (e : Event)
    (h : acc.break_count = acc.break_reasons.length) :
    (statsStep acc e).break_count = (statsStep acc e).break_reasons.length := by
  unfold statsStep
  cases e.action <;> cases hp : acc.pause_time <;> simp [hp, h]

lemma statsFold_count_length (events : List Event) :
    ∀ acc : StatsAcc, acc.break_count = acc.break_reasons.length →
      (events.foldl statsStep acc).break_count =
        (events.foldl statsStep acc).break_reasons.length := by
  induction events with
  | nil => intro acc h; exact h
  | cons e es ih => intro acc h; exact ih _ (statsStep_count_length acc e h)

lemma startTimes_cons (e : Event) (es : List Event) :
    startTimes (e :: es) =
      if e.action == Action.start then e.timestamp :: startTimes es else startTimes es := by
  unfold startTimes
  rw [List.filter_cons]
  split <;> simp_all

lemma endTimes_cons (e : Event) (es : List Event) :
    endTimes (e :: es) =
      if e.action == Action.endDay then e.timestamp :: endTimes es else endTimes es := by
  unfold endTimes
  rw [List.filter_cons]
  split <;> simp_all

lemma pauseReasons_cons (e : Event) (es : List Event) :
    pauseReasons (e :: es) =
      if e.action == Action.pause then
        (e.reason.getD "No reason") :: pauseReasons es
      else pauseReasons es := by
  unfold pauseReasons
  rw [List.filter_cons]
  split <;> simp_all

lemma rangeEventStep_fst (g : RangeAcc × RangeDayAcc) (e : Event) :
    ((rangeEventStep g e).1).work = g.1.work ∧
    ((rangeEventStep g e).1).brk = g.1.brk ∧
    ((rangeEventStep g e).1).count = g.1.count ∧
    ((rangeEventStep g e).1).reasons =
      g.1.reasons ++ (if e.action == Action.pause then [e.reason.getD "No reason"] else []) ∧
    ((rangeEventStep g e).1).first_start =
      (if e.action == Action.start then earliestUpdate g.1.first_start e.timestamp
       else g.1.first_start) ∧
    ((rangeEventStep g e).1).last_end =
      (if e.action == Action.endDay then latestUpdate g.1.last_end e.timestamp
       else g.1.last_end) := by
  unfold rangeEventStep earliestUpdate latestUpdate
  cases e.action <;>
    cases hf : g.1.first_start <;> cases hl : g.1.last_end <;> cases hp : g.2.d_pause <;>
      simp [hf, hl, hp] <;> split <;> simp [hf, hl, hp]

lemma rangeFold_fst (es : List Event) :
    ∀ g : RangeAcc × RangeDayAcc,
      ((es.foldl rangeEventStep g).1).work = g.1.work ∧
      ((es.foldl rangeEventStep g).1).brk = g.1.brk ∧
      ((es.foldl rangeEventStep g).1).count = g.1.count ∧
      ((es.foldl rangeEventStep g).1).reasons = g.1.reasons ++ pauseReasons es ∧
      ((es.foldl rangeEventStep g).1).first_start =
        (startTimes es).foldl earliestUpdate g.1.first_start ∧
      ((es.foldl rangeEventStep g).1).last_end =
        (endTimes es).foldl latestUpdate g.1.last_end := by
  induction es with
  | nil => intro g; simp [startTimes, endTimes, pauseReasons]
  | cons e es ih =>
    intro g
    obtain ⟨hw, hb, hc, hr, hf, hl⟩ := ih (rangeEventStep g e)
    obtain ⟨sw, sb, sc, sr, sf, sl⟩ := rangeEventStep_fst g e
    rw [List.foldl_cons, startTimes_cons, endTimes_cons, pauseReasons_cons]
    refine ⟨by rw [hw, sw], by rw [hb, sb], by rw [hc, sc], ?_, ?_, ?_⟩
    · rw [hr, sr]; split <;> simp
    · rw [hf, sf]; split <;> simp
    · rw [hl, sl]; split <;> simp

lemma rangeDayStep_work_mono (ga : RangeAcc) (grp : String × List Event) :
    ga.work ≤ (rangeDayStep ga grp).work := by
  unfold rangeDayStep
  obtain ⟨hw, -, -, -, -, -⟩ := rangeFold_fst grp.2 (ga, freshDayAcc)
  have hw2 : (List.foldl rangeEventStep (ga, freshDayAcc) grp.2).1.work = ga.work := hw
  dsimp only
  split
  · dsimp only
    rw [hw2]
    omega
  · rw [hw2]

lemma rangeFold_work_mono (gs : List (String × List Event)) :
    ∀ ga : RangeAcc, ga.work ≤ (gs.foldl rangeDayStep ga).work := by
  induction gs with
  | nil => intro ga; exact le_refl _
  | cons g gs ih =>
    intro ga
    exact le_trans (rangeDayStep_work_mono ga g) (ih (rangeDayStep ga g))

/-! ### Claim theorems -/

/-- C10: for every event sequence, `get_stats_for_date` returns a
`break_count` equal to the length of `break_reasons`: both are updated
together on every PAUSE event. -/
theorem stats_break_count_matches_reasons (events : List Event) :
    (getStatsForDate events).break_count =
      (getStatsForDate events).break_reasons.length := by
  unfold getStatsForDate
  split
  · rfl
  · exact statsFold_count_length events initStatsAcc rfl

/-- C8: `get_elapsed_work_time` returns 0 when IDLE or `workStartTime` is
unset; otherwise `(endInstant − workStartTime) − totalBreakSeconds`, further
reduced by the in-progress pause duration when PAUSED, with `endInstant` the
work end time when ENDED (and set) and the current instant otherwise,
clamped to be non-negative. -/
theorem elapsed_work_time_correct (s : TrackerState) (now : Int) :
    getElapsedWorkTime s now = elapsedWorkTimeSpec s now := by
  unfold getElapsedWorkTime elapsedWorkTimeSpec
  cases hst : s.state <;> cases hws : s.workStartTime <;>
    cases hwe : s.workEndTime <;> cases hps : s.pauseStartTime <;>
      simp [hst, hws, hwe, hps]

/-- C6: while WORKING, `pause_work` with an empty-after-strip reason fails
with the invalid-argument error and leaves the tracker unchanged; in any
other state the state guard fires first and yields the invalid-transition
error instead, also leaving the tracker unchanged. -/
theorem pause_empty_reason_rejected (s : TrackerState) (ok : Bool) (now : Int)
    (reason : String) (h : pyStrip reason = "") :
    (s.state = State.working →
        pauseWork ok now reason s =
          Except.error (TrackerError.invalidArgument "Pause reason is required.", s)) ∧
    (s.state ≠ State.working →
        pauseWork ok now reason s =
          Except.error (TrackerError.invalidTransition s.state Action.pause, s)) := by
  constructor
  · intro hw; unfold pauseWork; simp [hw, h]
  · intro hw; unfold pauseWork; simp [hw]

/-- Witness for C6: `pause_work("   ")` while WORKING yields the
invalid-argument error, and from IDLE the invalid-transition error. -/
theorem pause_empty_reason_rejected_witness :
    pyStrip "   " = "" ∧
    pauseWork true 0 "   " { freshState "d" with state := State.working } =
      Except.error (TrackerError.invalidArgument "Pause reason is required.",
        { freshState "d" with state := State.working }) ∧
    pauseWork true 0 "   " (freshState "d") =
      Except.error (TrackerError.invalidTransition State.idle Action.pause, freshState "d") :=
  ⟨by decide,
   (pause_empty_reason_rejected { freshState "d" with state := State.working } true 0 "   "
      (by decide)).1 rfl,
   (pause_empty_reason_rejected (freshState "d") true 0 "   " (by decide)).2 (by decide)⟩

/-- C7: each transition attempted outside its precondition returns the
invalid-transition error carrying the current state and the attempted
action, with the tracker unchanged and no event appended. -/
theorem invalid_transition_guards (s : TrackerState) (ok : Bool) (today : String)
    (now : Int) (reason : String) :
    (s.state ≠ State.idle →
        startWork ok today now s =
          Except.error (TrackerError.invalidTransition s.state Action.start, s)) ∧
    (s.state ≠ State.working →
        pauseWork ok now reason s =
          Except.error (TrackerError.invalidTransition s.state Action.pause, s)) ∧
    (s.state ≠ State.paused →
        resumeWork ok now s =
          Except.error (TrackerError.invalidTransition s.state Action.resume, s)) ∧
    (s.state ≠ State.working ∧ s.state ≠ State.paused →
        endDay ok now s =
          Except.error (TrackerError.invalidTransition s.state Action.endDay, s)) := by
  refine ⟨?_, ?_, ?_, ?_⟩
  · intro h; unfold startWork; simp [h]
  · intro h; unfold pauseWork; simp [h]
  · intro h; unfold resumeWork; simp [h]
  · intro h; unfold endDay; simp [h]

/-- Witness for C7: from the ENDED state all four transitions fail with the
invalid-transition error and leave the tracker unchanged. -/
theorem invalid_transition_guards_witness :
    startWork true "d" 0 { freshState "d" with state := State.ended } =
      Except.error (TrackerError.invalidTransition State.ended Action.start,
        { freshState "d" with state := State.ended }) ∧
    pauseWork true 0 "r" { freshState "d" with state := State.ended } =
      Except.error (TrackerError.invalidTransition State.ended Action.pause,
        { freshState "d" with state := State.ended }) ∧
    resumeWork true 0 { freshState "d" with state := State.ended } =
      Except.error (TrackerError.invalidTransition State.ended Action.resume,
        { freshState "d" with state := State.ended }) ∧
    endDay true 0 { freshState "d" with state := State.ended } =
      Except.error (TrackerError.invalidTransition State.ended Action.endDay,
        { freshState "d" with state := State.ended }) :=
  have h := invalid_transition_guards { freshState "d" with state := State.ended } true "d" 0 "r"
  ⟨h.1 (by decide), h.2.1 (by decide), h.2.2.1 (by decide), h.2.2.2 ⟨by decide, by decide⟩⟩

/-- C9: for every event list the range stats satisfy
`total_span_seconds = work_seconds + break_seconds`, and on `twoDayEvents`
this differs from the wall-clock span between the extremes. -/
theorem range_span_equals_work_plus_break :
    (∀ events : List Event,
        (getStatsForRange events).total_span_seconds =
          (getStatsForRange events).work_seconds + (getStatsForRange events).break_seconds) ∧
    ((getStatsForRange twoDayEvents).first_start = some 0 ∧
      (getStatsForRange twoDayEvents).last_end = some 1100 ∧
      (getStatsForRange twoDayEvents).total_span_seconds = 200 ∧
      (200 : Int) ≠ 1100 - 0) := by
  constructor
  · intro events
    unfold getStatsForRange
    split
    · simp
    · rfl
  · decide

/-- C4: the sequence START(t0), PAUSE(t0+100,"lunch"), RESUME(t0+700),
END(t0+1700) yields break 600, span 1700, work 1100, one break reason
"lunch", first_start t0, last_end t0+1700. -/
theorem single_day_stats_example (t0 : Int) :
    getStatsForDate
      [ { date := "d", timestamp := t0, action := Action.start, reason := none },
        { date := "d", timestamp := t0 + 100, action := Action.pause, reason := some "lunch" },
        { date := "d", timestamp := t0 + 700, action := Action.resume, reason := none },
        { date := "d", timestamp := t0 + 1700, action := Action.endDay, reason := none } ] =
      { total_span_seconds := 1700, break_seconds := 600, work_seconds := 1100,
        break_count := 1, break_reasons := ["lunch"], first_start := some t0,
        last_end := some (t0 + 1700) } := by
  unfold getStatsForDate
  simp only [List.isEmpty_cons, List.foldl_cons, List.foldl_nil]
  norm_num [statsStep, initStatsAcc, TimeStats.mk.injEq]

/-- C5 amended: `work_seconds` of both stats functions and the elapsed work
time are clamped to be non-negative for every input; (`total_span_seconds`
and `break_seconds` are not clamped and can go negative on out-of-order
timestamps, see the counterexample). -/
theorem work_durations_nonneg :
    (∀ events : List Event, 0 ≤ (getStatsForDate events).work_seconds) ∧
    (∀ events : List Event, 0 ≤ (getStatsForRange events).work_seconds) ∧
    (∀ (s : TrackerState) (now : Int), 0 ≤ getElapsedWorkTime s now) := by
  refine ⟨?_, ?_, ?_⟩
  · intro events
    unfold getStatsForDate
    split
    · simp
    · exact le_max_left 0 _
  · intro events
    unfold getStatsForRange
    split
    · simp
    · exact rangeFold_work_mono (groupByDate events) initRangeAcc
  · intro s now
    unfold getElapsedWorkTime
    split
    · exact le_refl 0
    · split
      · exact le_refl 0
      · exact le_max_left 0 _

/-- C5 counterexample: a START at 100 followed by an END at 50 yields a
negative `total_span_seconds`, so not every returned duration is
non-negative. -/
theorem negative_span_counterexample :
    (getStatsForDate
      [ { date := "d", timestamp := 100, action := Action.start, reason := none },
        { date := "d", timestamp := 50, action := Action.endDay, reason := none } ]
      ).total_span_seconds = -50 ∧
    ¬ (0 : Int) ≤ -50 := by decide

/-- C2 amended: when the append raises, `pause_work` and `resume_work`
leave the tracker exactly unchanged; `start_work` may have already set
`currentDate` to today; `end_day` from PAUSED may have already folded the
pending break into `totalBreakSeconds`; no other field changes. -/
theorem failed_append_state (s : TrackerState) (today : String) (now : Int)
    (reason : String) :
    (∃ e, pauseWork false now reason s = Except.error (e, s)) ∧
    (∃ e, resumeWork false now s = Except.error (e, s)) ∧
    (∃ e, startWork false today now s = Except.error (e, s) ∨
          startWork false today now s =
            Except.error (e, { s with currentDate := today })) ∧
    (∃ e, endDay false now s = Except.error (e, s) ∨
          (s.state = State.paused ∧ ∃ p, s.pauseStartTime = some p ∧
            endDay false now s =
              Except.error (e, { s with
                totalBreakSeconds := s.totalBreakSeconds + (now - p) }))) := by
  refine ⟨?_, ?_, ?_, ?_⟩
  · unfold pauseWork
    split
    · exact ⟨_, rfl⟩
    · split
      · exact ⟨_, rfl⟩
      · exact ⟨TrackerError.storageError, by simp⟩
  · unfold resumeWork
    split
    · exact ⟨_, rfl⟩
    · exact ⟨TrackerError.storageError, by simp⟩
  · unfold startWork
    split
    · exact ⟨_, Or.inl rfl⟩
    · exact ⟨TrackerError.storageError, Or.inr (by simp)⟩
  · unfold endDay
    split
    · exact ⟨_, Or.inl rfl⟩
    · by_cases hp : s.state = State.paused
      · cases hps : s.pauseStartTime with
        | none => exact ⟨TrackerError.storageError, Or.inl (by simp [hp, hps])⟩
        | some p =>
          exact ⟨TrackerError.storageError, Or.inr ⟨hp, p, rfl, by simp [hp, hps]⟩⟩
      · exact ⟨TrackerError.storageError, Or.inl (by simp [hp])⟩

/-- C2 counterexample: a failed append in `end_day` from PAUSED still folds
the pending break into `totalBreakSeconds`, so the tracker is not left in
its pre-transition state. -/
theorem failed_append_counterexample :
    endDay false 10 pausedAtZero =
      Except.error (TrackerError.storageError,
        { pausedAtZero with totalBreakSeconds := 10 }) ∧
    pausedAtZero.totalBreakSeconds = 0 ∧ (0 : Int) ≠ 10 := by decide

/-- C1 counterexample: after the legal live sequence [START at 0] the
tracker has `intervalStartTime = some 0`, while replaying the logged START
event leaves `intervalStartTime = none`, so replay does not reproduce every
field. -/
theorem restore_counterexample :
    runLive "d" [TimedAction.start 0] (freshState "d") =
      some ({ freshState "d" with
              state := State.working
              workStartTime := some 0
              intervalStartTime := some 0 },
        [ { date := "d", timestamp := 0, action := Action.start, reason := none } ]) ∧
    (restoreState "d" [ { date := "d", timestamp := 0, action := Action.start, reason := none } ]
        (freshState "d")).intervalStartTime = none ∧
    (some (0 : Int) ≠ (none : Option Int)) := by decide

/-- C3 counterexample: on `openSecondDayEvents` the code's range stats
report zero break seconds while the per-day composition reports 50, so
`get_stats_for_range` is not the per-day composition on all inputs. -/
theorem range_composition_counterexample :
    (getStatsForRange openSecondDayEvents).break_seconds = 0 ∧
    (statsForRangeSpec openSecondDayEvents).break_seconds = 50 ∧
    getStatsForRange openSecondDayEvents ≠ statsForRangeSpec openSecondDayEvents := by decide

lemma sim_step (today : String) (a : TimedAction) (L L1 : TrackerState) (e : Event)
    (A : RestoreAcc) (hinv : SimInv today L A)
    (h : applyTimedAction today a L = Except.ok (L1, e)) :
    SimInv today L1 (restoreStep A e) := by
  obtain ⟨h1, h2, h3, h4, h5, h6, h7, h8, h9, h10⟩ := hinv
  cases a with
  | start t =>
    by_cases hst : L.state = State.idle
    · simp only [applyTimedAction, startWork, hst, ne_eq, not_true_eq_false, if_false,
        Bool.true_eq_false, Except.ok.injEq, Prod.mk.injEq, ite_false] at h
      obtain ⟨hL, hE⟩ := h
      subst hL
      subst hE
      obtain ⟨hwe, hpp⟩ := h10 hst
      unfold restoreStep SimInv
      simp_all
    · simp [applyTimedAction, startWork, hst] at h
  | pause t r =>
    by_cases hst : L.state = State.working
    · by_cases hr : pyStrip r = ""
      · simp [applyTimedAction, pauseWork, hst, hr] at h
      · simp only [applyTimedAction, pauseWork, hst, ne_eq, not_true_eq_false, if_false,
          hr, Bool.true_eq_false, Except.ok.injEq, Prod.mk.injEq, ite_false] at h
        obtain ⟨hL, hE⟩ := h
        subst hL
        subst hE
        unfold restoreStep SimInv
        simp_all
    · simp [applyTimedAction, pauseWork, hst] at h
  | resume t =>
    by_cases hst : L.state = State.paused
    · simp only [applyTimedAction, resumeWork, hst, ne_eq, not_true_eq_false, if_false,
        Bool.true_eq_false, Except.ok.injEq, Prod.mk.injEq, ite_false] at h
      obtain ⟨hL, hE⟩ := h
      subst hL
      subst hE
      unfold restoreStep SimInv
      cases hps : L.pauseStartTime with
      | none => simp_all
      | some p => simp_all
    · simp [applyTimedAction, resumeWork, hst] at h
  | endDay t =>
    by_cases hw : L.state = State.working
    · simp only [applyTimedAction, endDay, hw, ne_eq, not_true_eq_false, false_and, if_false,
        Bool.true_eq_false, Except.ok.injEq, Prod.mk.injEq, ite_false] at h
      have hps : L.pauseStartTime = none := h9 hw
      obtain ⟨hL, hE⟩ := h
      subst hL
      subst hE
      unfold restoreStep SimInv
      simp_all
    · by_cases hp : L.state = State.paused
      · simp only [applyTimedAction, endDay, hw, hp, ne_eq, not_true_eq_false, and_false,
          if_false, Bool.true_eq_false, Except.ok.injEq, Prod.mk.injEq, ite_false,
          ite_true, if_true] at h
        cases hps : L.pauseStartTime with
        | none =>
          rw [hps] at h
          obtain ⟨hL, hE⟩ := h
          subst hL
          subst hE
          unfold restoreStep SimInv
          simp_all
        | some p =>
          rw [hps] at h
          obtain ⟨hL, hE⟩ := h
          subst hL
          subst hE
          unfold restoreStep SimInv
          simp_all
      · simp [applyTimedAction, endDay, hw, hp] at h

lemma runLive_sim (today : String) (acts : List TimedAction) :
    ∀ (L : TrackerState) (A : RestoreAcc) (L2 : TrackerState) (evs : List Event),
      SimInv today L A → runLive today acts L = some (L2, evs) →
      SimInv today L2 (evs.foldl restoreStep A) := by
  induction acts with
  | nil =>
    intro L A L2 evs hinv h
    unfold runLive at h
    simp only [Option.some.injEq, Prod.mk.injEq] at h
    obtain ⟨rfl, rfl⟩ := h
    exact hinv
  | cons a rest ih =>
    intro L A L2 evs hinv h
    unfold runLive at h
    cases happ : applyTimedAction today a L with
    | error x =>
      rw [happ] at h
      exact absurd h (by simp)
    | ok p =>
      obtain ⟨s1, e1⟩ := p
      rw [happ] at h
      dsimp only at h
      cases hrest : runLive today rest s1 with
      | none =>
        rw [hrest] at h
        exact absurd h (by simp)
      | some q =>
        obtain ⟨s2, es⟩ := q
        rw [hrest] at h
        simp only [Option.some.injEq, Prod.mk.injEq] at h
        obtain ⟨rfl, rfl⟩ := h
        rw [List.foldl_cons]
        exact ih s1 (restoreStep A e1) s2 es (sim_step today a L s1 e1 A hinv happ) hrest

/-- C1 amended: for every legal live sequence on one calendar date,
replaying the logged events reproduces the live tracker's `state`,
`currentDate`, `workStartTime`, `workEndTime`, `totalBreakSeconds` and
`breakReasons` exactly; `pauseStartTime` and `intervalStartTime` are not
part of this guarantee (see the counterexample). -/
theorem restore_partial_fidelity (today : String) (acts : List TimedAction)
    (L : TrackerState) (evs : List Event)
    (h : runLive today acts (freshState today) = some (L, evs)) :
    (restoreState today evs (freshState today)).state = L.state ∧
    (restoreState today evs (freshState today)).currentDate = L.currentDate ∧
    (restoreState today evs (freshState today)).workStartTime = L.workStartTime ∧
    (restoreState today evs (freshState today)).workEndTime = L.workEndTime ∧
    (restoreState today evs (freshState today)).totalBreakSeconds = L.totalBreakSeconds ∧
    (restoreState today evs (freshState today)).breakReasons = L.breakReasons := by
  have hbase : SimInv today (freshState today) { s := freshState today, pauseTime := none } := by
    unfold SimInv freshState
    simp
  have hsim := runLive_sim today acts (freshState today)
    { s := freshState today, pauseTime := none } L evs hbase h
  have hre : restoreState today evs (freshState today) =
      (evs.foldl restoreStep { s := freshState today, pauseTime := none }).s := by
    unfold restoreState
    rw [if_neg (by simp [freshState])]
    cases evs with
    | nil => rfl
    | cons e es => rfl
  rw [hre]
  obtain ⟨g1, g2, g3, g4, g5, g6, g7, g8, g9, g10⟩ := hsim
  exact ⟨g1, g2, g4, g5, g6, g7⟩

/-- Witness for C1 amended: the live sequence start/pause/resume/end on
date "d" produces `sampleFinal` and logs `sampleEvents`, and the replay of
`sampleEvents` agrees with `sampleFinal` on all restored fields. -/
theorem restore_partial_fidelity_witness :
    runLive "d" sampleActs (freshState "d") = some (sampleFinal, sampleEvents) ∧
    ((restoreState "d" sampleEvents (freshState "d")).state = sampleFinal.state ∧
      (restoreState "d" sampleEvents (freshState "d")).currentDate = sampleFinal.currentDate ∧
      (restoreState "d" sampleEvents (freshState "d")).workStartTime = sampleFinal.workStartTime ∧
      (restoreState "d" sampleEvents (freshState "d")).workEndTime = sampleFinal.workEndTime ∧
      (restoreState "d" sampleEvents (freshState "d")).totalBreakSeconds =
        sampleFinal.totalBreakSeconds ∧
      (restoreState "d" sampleEvents (freshState "d")).breakReasons = sampleFinal.breakReasons) :=
  ⟨by decide, restore_partial_fidelity "d" sampleActs sampleFinal sampleEvents (by decide)⟩



lemma rangeAcc_ext (x y : RangeAcc) (h1 : x.work = y.work) (h2 : x.brk = y.brk)
    (h3 : x.count = y.count) (h4 : x.reasons = y.reasons)
    (h5 : x.first_start = y.first_start) (h6 : x.last_end = y.last_end) : x = y := by
  cases x
  cases y
  simp_all

lemma combineEarliest_none (a : Option Int) : combineEarliest a none = a := by
  cases a <;> rfl

lemma combineLatest_none (a : Option Int) : combineLatest a none = a := by
  cases a <;> rfl

lemma combineEarliest_assoc (a b c : Option Int) :
    combineEarliest (combineEarliest a b) c = combineEarliest a (combineEarliest b c) := by
  cases a <;> cases b <;> cases c <;> simp [combineEarliest, min_assoc]

lemma combineLatest_assoc (a b c : Option Int) :
    combineLatest (combineLatest a b) c = combineLatest a (combineLatest b c) := by
  cases a <;> cases b <;> cases c <;> simp [combineLatest, max_assoc]

lemma earliestUpdate_combine (o : Option Int) (t : Int) :
    earliestUpdate o t = combineEarliest o (some t) := by
  cases o with
  | none => rfl
  | some f =>
    simp only [earliestUpdate, combineEarliest]
    by_cases h : t < f
    · rw [if_pos h]
      simp only [Option.some.injEq]
      omega
    · rw [if_neg h]
      simp only [Option.some.injEq]
      omega

lemma latestUpdate_combine (o : Option Int) (t : Int) :
    latestUpdate o t = combineLatest o (some t) := by
  cases o with
  | none => rfl
  | some l =>
    simp only [latestUpdate, combineLatest]
    by_cases h : t > l
    · rw [if_pos h]
      simp only [Option.some.injEq]
      omega
    · rw [if_neg h]
      simp only [Option.some.injEq]
      omega

lemma rangeEventStep_snd (g : RangeAcc × RangeDayAcc) (sa : StatsAcc) (e : Event)
    (hp : g.2.d_pause = sa.pause_time) (hb : g.2.d_break = sa.total_break)
    (hc : g.2.d_count = sa.break_count) (hl : g.2.d_last = sa.last_end) :
    (rangeEventStep g e).2.d_pause = (statsStep sa e).pause_time ∧
    (rangeEventStep g e).2.d_break = (statsStep sa e).total_break ∧
    (rangeEventStep g e).2.d_count = (statsStep sa e).break_count ∧
    (rangeEventStep g e).2.d_last = (statsStep sa e).last_end := by
  unfold rangeEventStep statsStep
  cases e.action <;> cases hpp : g.2.d_pause <;> cases hsp : sa.pause_time <;>
    simp_all <;> cases hf : g.2.d_first <;> cases hgf : g.1.first_start <;> simp_all

lemma rangeEventStep_dfirst (g : RangeAcc × RangeDayAcc) (e : Event) :
    (rangeEventStep g e).2.d_first =
      (if e.action == Action.start then keepFirst g.2.d_first e.timestamp
       else g.2.d_first) := by
  unfold rangeEventStep keepFirst
  cases e.action <;> cases hpp : g.2.d_pause <;> cases hf : g.2.d_first <;>
    cases hgf : g.1.first_start <;> cases hgl : g.1.last_end <;> simp_all

lemma statsStep_first_last_reasons (sa : StatsAcc) (e : Event) :
    (statsStep sa e).first_start =
      (if e.action == Action.start then overwrite sa.first_start e.timestamp
       else sa.first_start) ∧
    (statsStep sa e).last_end =
      (if e.action == Action.endDay then overwrite sa.last_end e.timestamp
       else sa.last_end) ∧
    (statsStep sa e).break_reasons =
      sa.break_reasons ++
        (if e.action == Action.pause then [e.reason.getD "No reason"] else []) := by
  unfold statsStep overwrite
  cases e.action <;> cases hsp : sa.pause_time <;> simp_all

lemma rangeFold_snd (es : List Event) :
    ∀ (g : RangeAcc × RangeDayAcc) (sa : StatsAcc),
      g.2.d_pause = sa.pause_time → g.2.d_break = sa.total_break →
      g.2.d_count = sa.break_count → g.2.d_last = sa.last_end →
      (es.foldl rangeEventStep g).2.d_pause = (es.foldl statsStep sa).pause_time ∧
      (es.foldl rangeEventStep g).2.d_break = (es.foldl statsStep sa).total_break ∧
      (es.foldl rangeEventStep g).2.d_count = (es.foldl statsStep sa).break_count ∧
      (es.foldl rangeEventStep g).2.d_last = (es.foldl statsStep sa).last_end := by
  induction es with
  | nil => intro g sa hp hb hc hl; exact ⟨hp, hb, hc, hl⟩
  | cons e es ih =>
    intro g sa hp hb hc hl
    rw [List.foldl_cons, List.foldl_cons]
    obtain ⟨sp, sb, sc, sl⟩ := rangeEventStep_snd g sa e hp hb hc hl
    exact ih (rangeEventStep g e) (statsStep sa e) sp sb sc sl

lemma rangeFold_dfirst (es : List Event) :
    ∀ g : RangeAcc × RangeDayAcc,
      (es.foldl rangeEventStep g).2.d_first = (startTimes es).foldl keepFirst g.2.d_first := by
  induction es with
  | nil => intro g; simp [startTimes]
  | cons e es ih =>
    intro g
    rw [List.foldl_cons, startTimes_cons, ih (rangeEventStep g e), rangeEventStep_dfirst]
    split <;> rfl

lemma statsFold_first_last_reasons (es : List Event) :
    ∀ sa : StatsAcc,
      (es.foldl statsStep sa).first_start = (startTimes es).foldl overwrite sa.first_start ∧
      (es.foldl statsStep sa).last_end = (endTimes es).foldl overwrite sa.last_end ∧
      (es.foldl statsStep sa).break_reasons = sa.break_reasons ++ pauseReasons es := by
  induction es with
  | nil => intro sa; simp [startTimes, endTimes, pauseReasons]
  | cons e es ih =>
    intro sa
    rw [List.foldl_cons, startTimes_cons, endTimes_cons, pauseReasons_cons]
    obtain ⟨ihf, ihl, ihr⟩ := ih (statsStep sa e)
    obtain ⟨sf, sl, sr⟩ := statsStep_first_last_reasons sa e
    refine ⟨?_, ?_, ?_⟩
    · rw [ihf, sf]; split <;> rfl
    · rw [ihl, sl]; split <;> rfl
    · rw [ihr, sr]; split <;> simp

lemma rangeDayStep_closed (ga : RangeAcc) (d : String) (es : List Event)
    (hs : (startTimes es).length = 1) (he : (endTimes es).length = 1) :
    rangeDayStep ga (d, es) =
      { work := ga.work + (getStatsForDate es).work_seconds
        brk := ga.brk + (getStatsForDate es).break_seconds
        count := ga.count + (getStatsForDate es).break_count
        reasons := ga.reasons ++ (getStatsForDate es).break_reasons
        first_start := combineEarliest ga.first_start (getStatsForDate es).first_start
        last_end := combineLatest ga.last_end (getStatsForDate es).last_end } := by
  obtain ⟨t1, hts⟩ := List.length_eq_one.mp hs
  obtain ⟨u1, hus⟩ := List.length_eq_one.mp he
  have hne : ¬ es.isEmpty = true := by
    intro hnil
    rw [List.isEmpty_iff] at hnil
    rw [hnil] at hts
    simp [startTimes] at hts
  obtain ⟨hw, hb, hc, hr, hf, hl⟩ := rangeFold_fst es (ga, freshDayAcc)
  obtain ⟨dp, db, dc, dl⟩ :=
    rangeFold_snd es (ga, freshDayAcc) initStatsAcc rfl rfl rfl rfl
  have hdf := rangeFold_dfirst es (ga, freshDayAcc)
  obtain ⟨sf, sl, sr⟩ := statsFold_first_last_reasons es initStatsAcc
  have hdf2 : (es.foldl rangeEventStep (ga, freshDayAcc)).2.d_first = some t1 := by
    rw [hdf, hts]
    rfl
  have hsf2 : (es.foldl statsStep initStatsAcc).first_start = some t1 := by
    rw [sf, hts]
    rfl
  have hsl2 : (es.foldl statsStep initStatsAcc).last_end = some u1 := by
    rw [sl, hus]
    rfl
  have hdl2 : (es.foldl rangeEventStep (ga, freshDayAcc)).2.d_last = some u1 := by
    rw [dl, hsl2]
  unfold rangeDayStep
  dsimp only
  rw [hdf2, hdl2]
  dsimp only
  unfold getStatsForDate
  rw [if_neg hne]
  dsimp only
  rw [hsf2, hsl2]
  dsimp only
  apply rangeAcc_ext
  · dsimp only
    rw [hw, db]
  · dsimp only
    rw [hb, db]
  · dsimp only
    rw [hc, dc]
  · dsimp only
    rw [hr, sr]
    simp [initStatsAcc]
  · dsimp only
    rw [hf, hts, List.foldl_cons, List.foldl_nil, earliestUpdate_combine]
  · dsimp only
    rw [hl, hus, List.foldl_cons, List.foldl_nil, latestUpdate_combine]

lemma sumWork_shift (ds : List TimeStats) :
    ∀ x : Int, ds.foldl (fun a d => a + d.work_seconds) x = x + sumWork ds := by
  induction ds with
  | nil => intro x; simp [sumWork]
  | cons d ds ih =>
    intro x
    have h1 := ih (x + d.work_seconds)
    have h2 : sumWork (d :: ds) = (0 + d.work_seconds) + sumWork ds := ih (0 + d.work_seconds)
    rw [List.foldl_cons, h1, h2]
    omega

lemma sumBreak_shift (ds : List TimeStats) :
    ∀ x : Int, ds.foldl (fun a d => a + d.break_seconds) x = x + sumBreak ds := by
  induction ds with
  | nil => intro x; simp [sumBreak]
  | cons d ds ih =>
    intro x
    have h1 := ih (x + d.break_seconds)
    have h2 : sumBreak (d :: ds) = (0 + d.break_seconds) + sumBreak ds := ih (0 + d.break_seconds)
    rw [List.foldl_cons, h1, h2]
    omega

lemma sumCount_shift (ds : List TimeStats) :
    ∀ x : Nat, ds.foldl (fun a d => a + d.break_count) x = x + sumCount ds := by
  induction ds with
  | nil => intro x; simp [sumCount]
  | cons d ds ih =>
    intro x
    have h1 := ih (x + d.break_count)
    have h2 : sumCount (d :: ds) = (0 + d.break_count) + sumCount ds := ih (0 + d.break_count)
    rw [List.foldl_cons, h1, h2]
    omega

lemma concatReasons_shift (ds : List TimeStats) :
    ∀ x : List String, ds.foldl (fun a d => a ++ d.break_reasons) x = x ++ concatReasons ds := by
  induction ds with
  | nil => intro x; simp [concatReasons]
  | cons d ds ih =>
    intro x
    have h1 := ih (x ++ d.break_reasons)
    have h2 : concatReasons (d :: ds) = ([] ++ d.break_reasons) ++ concatReasons ds :=
      ih ([] ++ d.break_reasons)
    rw [List.foldl_cons, h1, h2]
    simp

lemma earliestStart_shift (ds : List TimeStats) :
    ∀ x : Option Int,
      ds.foldl (fun a d => combineEarliest a d.first_start) x =
        combineEarliest x (earliestStart ds) := by
  induction ds with
  | nil => intro x; exact (combineEarliest_none x).symm
  | cons d ds ih =>
    intro x
    have h1 := ih (combineEarliest x d.first_start)
    have h2 : earliestStart (d :: ds) =
        combineEarliest (combineEarliest none d.first_start) (earliestStart ds) :=
      ih (combineEarliest none d.first_start)
    rw [List.foldl_cons, h1, h2, combineEarliest_assoc]
    rfl

lemma latestEnd_shift (ds : List TimeStats) :
    ∀ x : Option Int,
      ds.foldl (fun a d => combineLatest a d.last_end) x =
        combineLatest x (latestEnd ds) := by
  induction ds with
  | nil => intro x; exact (combineLatest_none x).symm
  | cons d ds ih =>
    intro x
    have h1 := ih (combineLatest x d.last_end)
    have h2 : latestEnd (d :: ds) =
        combineLatest (combineLatest none d.last_end) (latestEnd ds) :=
      ih (combineLatest none d.last_end)
    rw [List.foldl_cons, h1, h2, combineLatest_assoc]
    rfl

lemma sumWork_cons (d : TimeStats) (ds : List TimeStats) :
    sumWork (d :: ds) = d.work_seconds + sumWork ds := by
  have h : sumWork (d :: ds) = (0 + d.work_seconds) + sumWork ds := sumWork_shift ds _
  omega

lemma sumBreak_cons (d : TimeStats) (ds : List TimeStats) :
    sumBreak (d :: ds) = d.break_seconds + sumBreak ds := by
  have h : sumBreak (d :: ds) = (0 + d.break_seconds) + sumBreak ds := sumBreak_shift ds _
  omega

lemma sumCount_cons (d : TimeStats) (ds : List TimeStats) :
    sumCount (d :: ds) = d.break_count + sumCount ds := by
  have h : sumCount (d :: ds) = (0 + d.break_count) + sumCount ds := sumCount_shift ds _
  omega

lemma concatReasons_cons (d : TimeStats) (ds : List TimeStats) :
    concatReasons (d :: ds) = d.break_reasons ++ concatReasons ds := by
  have h : concatReasons (d :: ds) = ([] ++ d.break_reasons) ++ concatReasons ds :=
    concatReasons_shift ds _
  simpa using h

lemma earliestStart_cons (d : TimeStats) (ds : List TimeStats) :
    earliestStart (d :: ds) = combineEarliest d.first_start (earliestStart ds) :=
  earliestStart_shift ds (combineEarliest none d.first_start)

lemma latestEnd_cons (d : TimeStats) (ds : List TimeStats) :
    latestEnd (d :: ds) = combineLatest d.last_end (latestEnd ds) :=
  latestEnd_shift ds (combineLatest none d.last_end)

lemma rangeFold_groups (gs : List (String × List Event)) :
    ∀ ga : RangeAcc,
      (∀ g ∈ gs, (startTimes g.2).length = 1 ∧ (endTimes g.2).length = 1) →
      gs.foldl rangeDayStep ga =
        { work := ga.work + sumWork (gs.map (fun g => getStatsForDate g.2))
          brk := ga.brk + sumBreak (gs.map (fun g => getStatsForDate g.2))
          count := ga.count + sumCount (gs.map (fun g => getStatsForDate g.2))
          reasons := ga.reasons ++ concatReasons (gs.map (fun g => getStatsForDate g.2))
          first_start :=
            combineEarliest ga.first_start (earliestStart (gs.map (fun g => getStatsForDate g.2)))
          last_end :=
            combineLatest ga.last_end (latestEnd (gs.map (fun g => getStatsForDate g.2))) } := by
  induction gs with
  | nil =>
    intro ga hyp
    apply rangeAcc_ext <;>
      simp [sumWork, sumBreak, sumCount, concatReasons, earliestStart, latestEnd,
        combineEarliest_none, combineLatest_none]
  | cons g gs ih =>
    intro ga hyp
    obtain ⟨hs, he⟩ := hyp g (List.mem_cons_self g gs)
    have hrest : ∀ h ∈ gs, (startTimes h.2).length = 1 ∧ (endTimes h.2).length = 1 :=
      fun h hm => hyp h (List.mem_cons_of_mem g hm)
    rw [List.foldl_cons]
    have hstep := rangeDayStep_closed ga g.1 g.2 hs he
    rw [show (g.1, g.2) = g from rfl] at hstep
    rw [hstep, ih _ hrest]
    apply rangeAcc_ext <;> dsimp only <;> rw [List.map_cons]
    · rw [sumWork_cons]
      omega
    · rw [sumBreak_cons]
      omega
    · rw [sumCount_cons]
      omega
    · rw [concatReasons_cons]
      simp
    · rw [earliestStart_cons, combineEarliest_assoc]
    · rw [latestEnd_cons, combineLatest_assoc]

/-- C3 amended: when every date bucket has exactly one START and exactly
one END event, `get_stats_for_range` equals the spec's composition: group
by date, run the single-date replay per bucket, sum work/break/count,
concatenate reasons in date order, and take the earliest first_start and
latest last_end. -/
theorem range_matches_per_day_composition (events : List Event)
    (h : OnePerBucket events) :
    getStatsForRange events = statsForRangeSpec events := by
  unfold getStatsForRange statsForRangeSpec
  split
  · rename_i hemp
    have hnil : events = [] := by
      rw [List.isEmpty_iff] at hemp
      exact hemp
    subst hnil
    simp [specDays, groupByDate, sumWork, sumBreak, sumCount, concatReasons,
      earliestStart, latestEnd]
  · rw [rangeFold_groups (groupByDate events) initRangeAcc h]
    unfold specDays initRangeAcc
    dsimp only
    norm_num
    exact ⟨rfl, rfl⟩

/-- Witness for C3 amended: `closedDaysEvents` has one START and one END
per date, and the range stats equal the per-day composition there. -/
theorem range_matches_per_day_composition_witness :
    OnePerBucket closedDaysEvents ∧
    getStatsForRange closedDaysEvents = statsForRangeSpec closedDaysEvents :=
  ⟨by decide, range_matches_per_day_composition closedDaysEvents (by decide)⟩

end TimeLedger
